import Mathlib

/-!
Verification of the PortfolioExpert Backtest & Risk Engine (JavaScript sources
under `app/js/`) against its natural-language specification.

Shallow embedding conventions:
* JavaScript numbers are modelled as exact rationals (`ℚ`) in the computable
  core; wherever the source applies `Math.sqrt` the embedding moves to `ℝ`
  with `Real.sqrt` (those definitions live in a `noncomputable section`).
* JavaScript objects used as string-keyed maps (`priceHistory`, `weights`)
  are modelled as association lists in iteration (insertion) order;
  `Object.entries` enumeration corresponds to traversing the list, and
  `obj[key]` corresponds to `List.lookup` (keys are assumed distinct, which
  holds for JavaScript object keys).
* Calendar dates are modelled as natural numbers (trading-day indices);
  the engine only ever compares dates for equality or subtracts them.
* `null`/absent results are modelled with `Option`.
Only the record fields the engine reads are modelled (e.g. `PriceBar` keeps
`date` and `adjClose`; the unused open/high/low/close/volume are dropped).
-/

abbrev Ticker := String

/-- A single daily price bar, as consumed by the risk engine
(`{date, adjClose}` in `risk-analysis.js`). -/
structure PriceBar where
  date : ℕ
  adjClose : ℚ
  deriving DecidableEq, Inhabited, Repr

namespace RiskAnalysis

/-- `RiskAnalysis.TRADING_DAYS_PER_YEAR` (risk-analysis.js line 8). -/
def TRADING_DAYS_PER_YEAR : ℕ := 252

/-- `RiskAnalysis.Z_SCORES` (risk-analysis.js lines 11-15): the fixed
z-score table, as a partial lookup (JS object property access yields
`undefined` for a missing key, modelled as `none`). -/
def Z_SCORES (confidenceLevel : ℚ) : Option ℚ :=
  if confidenceLevel = 0.90 then some 1.282
  else if confidenceLevel = 0.95 then some 1.645
  else if confidenceLevel = 0.99 then some 2.326
  else none

/-- Loop body of `calculateDailyReturns` (lines 28-34): walk the bars,
emitting `(curr - prev)/prev` whenever the previous price is positive. -/
def dailyReturnsAux : PriceBar → List PriceBar → List ℚ
  | _, [] => []
  | prev, curr :: rest =>
      if 0 < prev.adjClose then
        (curr.adjClose - prev.adjClose) / prev.adjClose :: dailyReturnsAux curr rest
      else
        dailyReturnsAux curr rest

/-- `RiskAnalysis.calculateDailyReturns` (risk-analysis.js lines 22-36). -/
def calculateDailyReturns (prices : List PriceBar) : List ℚ :=
  if prices.length < 2 then []
  else
    match prices with
    | [] => []
    | p :: rest => dailyReturnsAux p rest

/-- Per-asset return series built by `calculatePortfolioReturns`
(lines 49-53): tickers of the price history whose weight is defined. -/
def assetReturns (priceHistory : List (Ticker × List PriceBar))
    (weights : List (Ticker × ℚ)) : List (Ticker × List ℚ) :=
  priceHistory.filterMap fun p =>
    if (weights.lookup p.1).isSome then some (p.1, calculateDailyReturns p.2) else none

/-- The `minLength` accumulator of `calculatePortfolioReturns` (lines 47-52):
starts at `Infinity` (modelled as `none`) and takes the minimum of the
per-asset return-series lengths. -/
def minLen (ars : List (Ticker × List ℚ)) : Option ℕ :=
  ars.foldl
    (fun m p =>
      match m with
      | none => some p.2.length
      | some k => some (min k p.2.length))
    none

/-- `RiskAnalysis.calculatePortfolioReturns` (risk-analysis.js lines 44-73).
Note the alignment is positional: entry `i` of the result sums
`weight * assetReturns[ticker][i]` over the weight entries, for
`i < minLength`. -/
def calculatePortfolioReturns (priceHistory : List (Ticker × List PriceBar))
    (weights : List (Ticker × ℚ)) : List ℚ :=
  let ars := assetReturns priceHistory weights
  match minLen ars with
  | none => []
  | some m =>
      if m = 0 then []
      else
        (List.range m).map fun i =>
          weights.foldl
            (fun acc p =>
              match ars.lookup p.1 with
              | some rs => acc + p.2 * rs.getD i 0
              | none => acc)
            0

/-- `RiskAnalysis.mean` (risk-analysis.js lines 80-83). -/
def mean (arr : List ℚ) : ℚ :=
  if arr = [] then 0 else arr.sum / arr.length

/-- The sample variance computed inside `stdDev` (lines 98-99):
sum of squared deviations divided by `length - 1`. -/
def sampleVariance (arr : List ℚ) (m : ℚ) : ℚ :=
  ((arr.map fun x => (x - m) ^ 2).sum) / ((arr.length : ℚ) - 1)

/-- Result record of `calculateExpectedReturn` (lines 108-116). -/
structure ExpectedReturnStats where
  dailyReturn : ℚ
  annualizedReturn : ℚ
  deriving DecidableEq, Repr

/-- `RiskAnalysis.calculateExpectedReturn` (risk-analysis.js lines 108-116). -/
def calculateExpectedReturn (portfolioReturns : List ℚ) : ExpectedReturnStats :=
  { dailyReturn := mean portfolioReturns
    annualizedReturn := mean portfolioReturns * TRADING_DAYS_PER_YEAR }

/-- Loop body of `calculateDailyReturnsWithDates` (lines 172-181). -/
def dailyReturnsWithDatesAux : PriceBar → List PriceBar → List (ℕ × ℚ)
  | _, [] => []
  | prev, curr :: rest =>
      if 0 < prev.adjClose then
        (curr.date, (curr.adjClose - prev.adjClose) / prev.adjClose)
          :: dailyReturnsWithDatesAux curr rest
      else
        dailyReturnsWithDatesAux curr rest

/-- `RiskAnalysis.calculateDailyReturnsWithDates` (risk-analysis.js
lines 166-183): like `calculateDailyReturns` but tagging each return with
the date of the current bar. -/
def calculateDailyReturnsWithDates (prices : List PriceBar) : List (ℕ × ℚ) :=
  if prices.length < 2 then []
  else
    match prices with
    | [] => []
    | p :: rest => dailyReturnsWithDatesAux p rest

end RiskAnalysis

noncomputable section
open scoped Classical

namespace RiskAnalysis

/-- `RiskAnalysis.stdDev` (risk-analysis.js lines 91-101), with the mean
passed explicitly (the callers that matter pre-compute it; `stdDev` with the
default `null` argument first computes `mean arr` itself). -/
def stdDev (arr : List ℚ) (m : ℚ) : ℝ :=
  if arr.length < 2 then 0 else Real.sqrt ((sampleVariance arr m : ℚ) : ℝ)

/-- Result record of `calculateVolatility` (lines 123-133). -/
structure VolatilityStats where
  dailyVolatility : ℝ
  annualizedVolatility : ℝ
  dailyVariance : ℝ

/-- `RiskAnalysis.calculateVolatility` (risk-analysis.js lines 123-133). -/
def calculateVolatility (portfolioReturns : List ℚ) : VolatilityStats :=
  let dailyMean := mean portfolioReturns
  let dailyStdDev := stdDev portfolioReturns dailyMean
  { dailyVolatility := dailyStdDev
    annualizedVolatility := dailyStdDev * Real.sqrt (TRADING_DAYS_PER_YEAR : ℝ)
    dailyVariance := dailyStdDev * dailyStdDev }

/-- `RiskAnalysis.calculateSharpeRatio` (risk-analysis.js lines 142-145);
the name is shortened here, the JS function is `calculateSharpeRatio`. -/
def calculateSharpe (annualizedReturn annualizedVolatility riskFreeRate : ℝ) : ℝ :=
  if annualizedVolatility = 0 then 0
  else (annualizedReturn - riskFreeRate) / annualizedVolatility

/-- `RiskAnalysis.calculateVaR` (risk-analysis.js lines 155-159):
`z = Z_SCORES[confidenceLevel] || 1.645`, then
`portfolioValue * (dailyVolatility * sqrt(days)) * z`. -/
def calculateVaR (portfolioValue dailyVolatility : ℝ) (days : ℕ)
    (confidenceLevel : ℚ) : ℝ :=
  let z : ℚ := (Z_SCORES confidenceLevel).getD 1.645
  let periodVolatility := dailyVolatility * Real.sqrt (days : ℝ)
  portfolioValue * periodVolatility * (z : ℝ)

/-- First half of `calculateCorrelation` (risk-analysis.js lines 192-212):
build the date-aligned pairs of returns.  The two JS `Map`s give per-date
lookup; iterating `map1` and probing `map2` is, for return series with
distinct dates (guaranteed upstream: price bars have no duplicate dates), a
filterMap over the first series with a lookup into the second. -/
def alignByDate (returns1 returns2 : List (ℕ × ℚ)) : List (ℚ × ℚ) :=
  returns1.filterMap fun r => (returns2.lookup r.1).map fun v => (r.2, v)

/-- Second half of `calculateCorrelation` (risk-analysis.js lines 214-237):
the Pearson coefficient of the aligned pairs, `0` when fewer than two pairs
or a zero denominator. -/
def pearson (aligned : List (ℚ × ℚ)) : ℝ :=
  if aligned.length < 2 then 0
  else
    let mean1 := mean (aligned.map Prod.fst)
    let mean2 := mean (aligned.map Prod.snd)
    let sumProduct := (aligned.map fun p => (p.1 - mean1) * (p.2 - mean2)).sum
    let sumSq1 := (aligned.map fun p => (p.1 - mean1) ^ 2).sum
    let sumSq2 := (aligned.map fun p => (p.2 - mean2) ^ 2).sum
    let denom := Real.sqrt ((sumSq1 * sumSq2 : ℚ) : ℝ)
    if denom = 0 then 0 else (sumProduct : ℝ) / denom

/-- `RiskAnalysis.calculateCorrelation` (risk-analysis.js lines 191-238):
align the two series by date, then take the Pearson coefficient. -/
def calculateCorrelation (returns1 returns2 : List (ℕ × ℚ)) : ℝ :=
  pearson (alignByDate returns1 returns2)

/-- Row `i` of the correlation matrix (risk-analysis.js lines 262-283):
`1.0` on the diagonal, a copy of `matrix[j][i]` below it (`acc` holds the
previously built rows), and a fresh pairwise correlation above it. -/
def buildRow (rets : List (List (ℕ × ℚ))) (acc : List (List ℝ)) (i : ℕ) : List ℝ :=
  (List.range rets.length).map fun j =>
    if i = j then 1
    else if j < i then (acc.getD j []).getD i 0
    else calculateCorrelation (rets.getD i []) (rets.getD j [])

/-- The row loop of `calculateCorrelationMatrix` (lines 258-284). -/
def buildMatrix (rets : List (List (ℕ × ℚ))) : List (List ℝ) :=
  (List.range rets.length).foldl (fun acc i => acc ++ [buildRow rets acc i]) []

/-- The per-asset dated return series computed at lines 252-255 of
`calculateCorrelationMatrix` (the JS `assetReturns` object keyed by ticker,
here in ticker order). -/
def assetReturnsWithDates (priceHistory : List (Ticker × List PriceBar)) :
    List (List (ℕ × ℚ)) :=
  priceHistory.map fun p => calculateDailyReturnsWithDates p.2

/-- `RiskAnalysis.calculateCorrelationMatrix` (risk-analysis.js
lines 245-291), restricted to the `matrix` component of its result (the
`tickers` echo and the `commonDates` statistic do not bear on any claim). -/
def calculateCorrelationMatrix (priceHistory : List (Ticker × List PriceBar)) :
    List (List ℝ) :=
  buildMatrix (assetReturnsWithDates priceHistory)

/-- The metrics record assembled by `analyze` (risk-analysis.js
lines 349-385); `sharpe` models the JS field `sharpeRatio`, and
`correlation` keeps the matrix component. -/
structure RiskMetrics where
  dailyReturn : ℝ
  annualizedReturn : ℝ
  dailyVolatility : ℝ
  annualizedVolatility : ℝ
  baseDailyReturn : ℚ
  baseDailyVolatility : ℝ
  baseAnnualizedReturn : ℚ
  baseAnnualizedVolatility : ℝ
  sharpe : ℝ
  riskFreeRate : ℝ
  var95_1d : ℝ
  var99_1d : ℝ
  var95_30d : ℝ
  var99_30d : ℝ
  correlation : List (List ℝ)
  leverageRate : ℝ
  leveragedValue : ℝ
  baseCash : ℝ
  portfolioReturns : List ℚ
  dataPoints : ℕ

/-- `RiskAnalysis.analyze` (risk-analysis.js lines 298-391).  The reads of
`CalculatorState` (weights, target cash, leverage, risk-free rate — lines
305-308, with their `|| 1` / `|| 0.05` defaulting) are modelled as explicit
arguments; the `await DataManager.fetchHistoricalPrices` branch is outside
the engine (the price history is an argument).  Returning `null` when the
portfolio return sequence is empty is modelled as `none`. -/
def analyze (priceHistory : List (Ticker × List PriceBar))
    (weights : List (Ticker × ℚ)) (targetCash leverageRate riskFreeRate : ℝ) :
    Option RiskMetrics :=
  let leveragedValue := targetCash * leverageRate
  let portfolioReturns := calculatePortfolioReturns priceHistory weights
  if portfolioReturns = [] then none
  else
    let returnStats := calculateExpectedReturn portfolioReturns
    let volStats := calculateVolatility portfolioReturns
    let leveragedDailyReturn := (returnStats.dailyReturn : ℝ) * leverageRate
    let leveragedAnnualizedReturn := (returnStats.annualizedReturn : ℝ) * leverageRate
    let leveragedDailyVolatility := volStats.dailyVolatility * leverageRate
    let leveragedAnnualizedVolatility := volStats.annualizedVolatility * leverageRate
    let sharpe := calculateSharpe leveragedAnnualizedReturn
      leveragedAnnualizedVolatility riskFreeRate
    some
      { dailyReturn := leveragedDailyReturn
        annualizedReturn := leveragedAnnualizedReturn
        dailyVolatility := leveragedDailyVolatility
        annualizedVolatility := leveragedAnnualizedVolatility
        baseDailyReturn := returnStats.dailyReturn
        baseDailyVolatility := volStats.dailyVolatility
        baseAnnualizedReturn := returnStats.annualizedReturn
        baseAnnualizedVolatility := volStats.annualizedVolatility
        sharpe := sharpe
        riskFreeRate := riskFreeRate
        var95_1d := calculateVaR leveragedValue leveragedDailyVolatility 1 0.95
        var99_1d := calculateVaR leveragedValue leveragedDailyVolatility 1 0.99
        var95_30d := calculateVaR leveragedValue leveragedDailyVolatility 30 0.95
        var99_30d := calculateVaR leveragedValue leveragedDailyVolatility 30 0.99
        correlation := calculateCorrelationMatrix priceHistory
        leverageRate := leverageRate
        leveragedValue := leveragedValue
        baseCash := targetCash
        portfolioReturns := portfolioReturns
        dataPoints := portfolioReturns.length }

end RiskAnalysis

namespace Projection

/-- `Projection.TIME_HORIZONS` (risk-analysis.js line 854). -/
def TIME_HORIZONS : List ℕ := [21, 63, 126, 252]

/-- A `{low, high}` confidence interval (risk-analysis.js lines 899-912). -/
structure ConfInterval where
  low : ℝ
  high : ℝ

/-- The `intervals` object of `Projection.calculate`. -/
structure Intervals where
  p68 : ConfInterval
  p95 : ConfInterval
  p99 : ConfInterval

/-- The projection record returned by `Projection.calculate`
(risk-analysis.js lines 917-929). -/
structure ProjResult where
  currentValue : ℝ
  expectedValue : ℝ
  expectedReturn : ℝ
  standardDeviation : ℝ
  intervals : Intervals
  days : ℕ
  leverageRate : ℝ
  leveragedDailyReturn : ℝ
  leveragedDailyStd : ℝ
  baseDailyReturn : ℝ
  baseDailyStd : ℝ

/-- `Projection.calculate` (risk-analysis.js lines 884-930), the
multi-horizon value-projection variant. -/
def calculate (baseCash baseDailyReturn baseDailyStd leverageRate : ℝ)
    (days : ℕ) : ProjResult :=
  let leveragedDailyReturn := baseDailyReturn * leverageRate
  let leveragedDailyStd := baseDailyStd * leverageRate
  let expectedValue := baseCash * (1 + leveragedDailyReturn) ^ days
  let projectedStd := expectedValue * leveragedDailyStd * Real.sqrt (days : ℝ)
  { currentValue := baseCash
    expectedValue := expectedValue
    expectedReturn := (expectedValue - baseCash) / baseCash
    standardDeviation := projectedStd
    intervals :=
      { p68 := { low := expectedValue - projectedStd, high := expectedValue + projectedStd }
        p95 := { low := expectedValue - 1.96 * projectedStd
                 high := expectedValue + 1.96 * projectedStd }
        p99 := { low := expectedValue - 2.576 * projectedStd
                 high := expectedValue + 2.576 * projectedStd } }
    days := days
    leverageRate := leverageRate
    leveragedDailyReturn := leveragedDailyReturn
    leveragedDailyStd := leveragedDailyStd
    baseDailyReturn := baseDailyReturn
    baseDailyStd := baseDailyStd }

/-- `Projection.calculateAll` (risk-analysis.js lines 936-960): one
projection per fixed horizon, keyed by the horizon (the JS object keyed by
`days` is an association list here).  The reads of `CalculatorState`
(`baseCash`, risk metrics, leverage) are explicit arguments. -/
def calculateAll (baseCash baseDailyReturn baseDailyStd leverageRate : ℝ) :
    List (ℕ × ProjResult) :=
  TIME_HORIZONS.map fun days =>
    (days, calculate baseCash baseDailyReturn baseDailyStd leverageRate days)

/-- The parallel arrays produced by `Projection.calculateContinuous`
(risk-analysis.js lines 977-1002). -/
structure ContinuousProj where
  days : List ℕ
  expected : List ℝ
  upper95 : List ℝ
  lower95 : List ℝ
  upper68 : List ℝ
  lower68 : List ℝ

/-- `Projection.calculateContinuous` (risk-analysis.js lines 967-1003):
for every trading day `d` in `0..252`, expected value
`baseCash * (1 + leveragedDailyReturn)^d` and bands at
`± 1.96 ×` / `± 1 ×` the standard deviation
`expValue * leveragedDailyStd * sqrt(max d 1)` (the JS loop pushes into six
parallel arrays; each is the corresponding map over the day range). -/
def calculateContinuous (baseCash baseDailyReturn baseDailyStd leverageRate : ℝ) :
    ContinuousProj :=
  let leveragedDailyReturn := baseDailyReturn * leverageRate
  let leveragedDailyStd := baseDailyStd * leverageRate
  let expValue : ℕ → ℝ := fun d => baseCash * (1 + leveragedDailyReturn) ^ d
  let std : ℕ → ℝ := fun d => expValue d * leveragedDailyStd * Real.sqrt (max d 1 : ℝ)
  let dayRange := List.range (RiskAnalysis.TRADING_DAYS_PER_YEAR + 1)
  { days := dayRange
    expected := dayRange.map expValue
    upper95 := dayRange.map fun d => expValue d + 1.96 * std d
    lower95 := dayRange.map fun d => expValue d - 1.96 * std d
    upper68 := dayRange.map fun d => expValue d + std d
    lower68 := dayRange.map fun d => expValue d - std d }

end Projection

end

namespace App

/-- One point of the backtest equity curve (`{date, value}` in app.js). -/
structure EquityPoint where
  date : ℕ
  value : ℚ
  deriving DecidableEq, Inhabited, Repr

/-- A drawdown episode as recorded by `calculateDrawdowns`
(app.js lines 746-754). -/
structure DrawdownPeriod where
  peakDate : ℕ
  peakValue : ℚ
  troughDate : ℕ
  troughValue : ℚ
  drawdown : ℚ
  duration : ℕ
  recoveryDate : Option ℕ
  deriving DecidableEq, Repr

/-- Loop state of `calculateDrawdowns` (app.js lines 721-724): the running
peak and its date, the currently open episode (the JS `inDrawdown` flag is
exactly `currentDrawdown ≠ null`, so the `Option` carries both), and the
episodes pushed so far. -/
structure DrawdownState where
  peak : ℚ
  peakDate : ℕ
  current : Option DrawdownPeriod
  acc : List DrawdownPeriod

/-- One iteration of the `calculateDrawdowns` loop (app.js lines 726-764). -/
def drawdownStep (s : DrawdownState) (point : EquityPoint) : DrawdownState :=
  if s.peak < point.value then
    -- New peak - close any open drawdown
    match s.current with
    | some cd =>
        { peak := point.value, peakDate := point.date, current := none
          acc := s.acc ++ [{ cd with recoveryDate := some point.date }] }
    | none => { s with peak := point.value, peakDate := point.date }
  else
    let dd := (point.value - s.peak) / s.peak
    match s.current with
    | none =>
        if dd < -(1 / 100) then
          -- Start drawdown if more than 1% below the running peak
          { s with
            current := some
              { peakDate := s.peakDate, peakValue := s.peak
                troughDate := point.date, troughValue := point.value
                drawdown := dd, duration := 0, recoveryDate := none } }
        else s
    | some cd =>
        if dd < cd.drawdown then
          -- Update trough if this is lower
          { s with
            current := some
              { cd with troughDate := point.date, troughValue := point.value
                        drawdown := dd } }
        else s

/-- `App.calculateDrawdowns` (app.js lines 719-779).  The duration pass at
lines 772-776 computes whole days between peak and trough; with dates as
day indices that is the difference of the indices.  The JS code dereferences
`equityCurve[0]`, so it is only ever called with a non-empty curve
(`displayDrawdownPeriods` guards `length < 2`); the empty case here returns
the empty list. -/
def calculateDrawdowns (equityCurve : List EquityPoint) : List DrawdownPeriod :=
  match equityCurve with
  | [] => []
  | p0 :: rest =>
      let final := rest.foldl drawdownStep
        { peak := p0.value, peakDate := p0.date, current := none, acc := [] }
      let dds := final.acc ++ (match final.current with
        | some cd => [cd]
        | none => [])
      dds.map fun dd => { dd with duration := dd.troughDate - dd.peakDate }

end App

/-- Claim C8: for every annualized return and risk-free rate, the Sharpe
computation returns `(annualized_return - risk_free_rate) / annualized_volatility`
when the annualized volatility is non-zero, and exactly `0` when it is `0`,
so the division-by-zero branch is never taken (the function is total and
never yields an undefined value). -/
theorem c8_sharpe_zero_guard (a v r : ℝ) :
    (v = 0 → RiskAnalysis.calculateSharpe a v r = 0) ∧
    (v ≠ 0 → RiskAnalysis.calculateSharpe a v r = (a - r) / v) := by
  unfold RiskAnalysis.calculateSharpe
  constructor <;> intro h <;> simp [h]

/-- Witness for C8 at a concrete input: volatility `2` is non-zero and the
Sharpe value is the quotient `(1 - 0) / 2`. -/
theorem c8_sharpe_zero_guard_witness :
    RiskAnalysis.calculateSharpe 1 2 0 = (1 - 0) / 2 :=
  (c8_sharpe_zero_guard 1 2 0).2 (by norm_num)

/-- Claim C10: for every confidence level outside the fixed z-score table
`{0.90, 0.95, 0.99}`, the VaR computation silently falls back to the 95%
z-score `1.645`, so VaR at an unlisted confidence level equals VaR at 95%
for the same value, volatility and horizon. -/
theorem c10_var_fallback (v sigma : ℝ) (d : ℕ) (c : ℚ)
    (hc1 : c ≠ 0.90) (hc2 : c ≠ 0.95) (hc3 : c ≠ 0.99) :
    RiskAnalysis.calculateVaR v sigma d c = RiskAnalysis.calculateVaR v sigma d 0.95 := by
  have hz : RiskAnalysis.Z_SCORES c = none := by
    unfold RiskAnalysis.Z_SCORES
    simp [hc1, hc2, hc3]
  have hz95 : RiskAnalysis.Z_SCORES 0.95 = some 1.645 := by
    unfold RiskAnalysis.Z_SCORES
    norm_num
  unfold RiskAnalysis.calculateVaR
  rw [hz, hz95]
  rfl

/-- Witness for C10 at a concrete input: the unlisted confidence level `1/2`
yields the same VaR as `0.95`. -/
theorem c10_var_fallback_witness :
    RiskAnalysis.calculateVaR 100 1 30 (1/2) = RiskAnalysis.calculateVaR 100 1 30 0.95 :=
  c10_var_fallback 100 1 30 (1/2) (by norm_num) (by norm_num) (by norm_num)

/-- The z multiplier actually used by `calculateVaR` is always positive
(table entries and the `1.645` fallback alike). -/
theorem zUsed_pos (c : ℚ) : (0 : ℚ) < (RiskAnalysis.Z_SCORES c).getD 1.645 := by
  unfold RiskAnalysis.Z_SCORES
  split_ifs <;> norm_num

/-- Claim C4: parametric VaR equals
`value * daily_volatility * sqrt(horizon_days) * z(confidence)` with z-scores
`{90%: 1.282, 95%: 1.645, 99%: 2.326}`; it is non-negative for non-negative
value and volatility; and for strictly positive value and volatility it is
strictly increasing in the horizon (30-day VaR exceeds 1-day VaR) and in the
confidence level (99% VaR exceeds 95% VaR at any positive horizon). -/
theorem c4_var_properties (v sigma : ℝ) (d : ℕ) (c : ℚ) :
    RiskAnalysis.calculateVaR v sigma d c
        = v * sigma * Real.sqrt (d : ℝ) * (((RiskAnalysis.Z_SCORES c).getD 1.645 : ℚ) : ℝ) ∧
    RiskAnalysis.Z_SCORES 0.90 = some 1.282 ∧
    RiskAnalysis.Z_SCORES 0.95 = some 1.645 ∧
    RiskAnalysis.Z_SCORES 0.99 = some 2.326 ∧
    (0 ≤ v → 0 ≤ sigma → 0 ≤ RiskAnalysis.calculateVaR v sigma d c) ∧
    (0 < v → 0 < sigma →
      RiskAnalysis.calculateVaR v sigma 1 c < RiskAnalysis.calculateVaR v sigma 30 c) ∧
    (0 < v → 0 < sigma → 0 < d →
      RiskAnalysis.calculateVaR v sigma d 0.95 < RiskAnalysis.calculateVaR v sigma d 0.99) := by
  have hz : (0 : ℝ) < (((RiskAnalysis.Z_SCORES c).getD 1.645 : ℚ) : ℝ) := by
    exact_mod_cast zUsed_pos c
  refine ⟨by unfold RiskAnalysis.calculateVaR; ring, by norm_num [RiskAnalysis.Z_SCORES],
    by norm_num [RiskAnalysis.Z_SCORES], by norm_num [RiskAnalysis.Z_SCORES], ?_, ?_, ?_⟩
  · intro hv hs
    unfold RiskAnalysis.calculateVaR
    have := Real.sqrt_nonneg (d : ℝ)
    positivity
  · intro hv hs
    unfold RiskAnalysis.calculateVaR
    have hlt : Real.sqrt ((1 : ℕ) : ℝ) < Real.sqrt ((30 : ℕ) : ℝ) := by
      apply Real.sqrt_lt_sqrt <;> norm_num
    have hmul : 0 < v * sigma * (((RiskAnalysis.Z_SCORES c).getD 1.645 : ℚ) : ℝ) := by
      positivity
    nlinarith [mul_pos hmul (sub_pos.2 hlt)]
  · intro hv hs hd
    unfold RiskAnalysis.calculateVaR
    have hsq : (0 : ℝ) < Real.sqrt (d : ℝ) := by
      apply Real.sqrt_pos.2
      exact_mod_cast hd
    have hz95 : RiskAnalysis.Z_SCORES 0.95 = some 1.645 := by
      norm_num [RiskAnalysis.Z_SCORES]
    have hz99 : RiskAnalysis.Z_SCORES 0.99 = some 2.326 := by
      norm_num [RiskAnalysis.Z_SCORES]
    rw [hz95, hz99]
    have hmul : 0 < v * (sigma * Real.sqrt (d : ℝ)) := by positivity
    have : ((((some (1.645 : ℚ)).getD 1.645 : ℚ)) : ℝ) < (((some (2.326 : ℚ)).getD 1.645 : ℚ) : ℝ) := by
      norm_num
    nlinarith [mul_pos hmul (sub_pos.2 this)]

/-- Witness for C4 at concrete inputs: with value `1` and volatility `1`,
VaR is non-negative, the 30-day VaR exceeds the 1-day VaR, and the 99% VaR
exceeds the 95% VaR at horizon 1. -/
theorem c4_var_properties_witness :
    0 ≤ RiskAnalysis.calculateVaR 1 1 1 0.95 ∧
    RiskAnalysis.calculateVaR 1 1 1 0.95 < RiskAnalysis.calculateVaR 1 1 30 0.95 ∧
    RiskAnalysis.calculateVaR 1 1 1 0.95 < RiskAnalysis.calculateVaR 1 1 1 0.99 :=
  ⟨(c4_var_properties 1 1 1 0.95).2.2.2.2.1 (by norm_num) (by norm_num),
   (c4_var_properties 1 1 1 0.95).2.2.2.2.2.1 (by norm_num) (by norm_num),
   (c4_var_properties 1 1 1 0.95).2.2.2.2.2.2 (by norm_num) (by norm_num) (by norm_num)⟩

set_option maxRecDepth 4000 in
/-- Claim C7: the value projection computes
`expected_value = capital * (1 + leveraged_daily_return)^d`, standard
deviation `expected_value * leveraged_daily_std * sqrt d` (scaled from the
expected value, not the starting capital), and confidence intervals
`expected_value ± {1, 1.96, 2.576} × std` for the 68%/95%/99% levels;
discrete projections are produced at exactly the horizons
`{21, 63, 126, 252}` trading days, and the continuous variant emits a value
for every integer day `0..252`. -/
theorem c7_projection_formulas (cash mu sigma lev : ℝ) (d : ℕ) :
    (Projection.calculate cash mu sigma lev d).expectedValue
        = cash * (1 + mu * lev) ^ d ∧
    (Projection.calculate cash mu sigma lev d).standardDeviation
        = (Projection.calculate cash mu sigma lev d).expectedValue
            * (sigma * lev) * Real.sqrt (d : ℝ) ∧
    (Projection.calculate cash mu sigma lev d).intervals.p68.low
        = (Projection.calculate cash mu sigma lev d).expectedValue
            - (Projection.calculate cash mu sigma lev d).standardDeviation ∧
    (Projection.calculate cash mu sigma lev d).intervals.p68.high
        = (Projection.calculate cash mu sigma lev d).expectedValue
            + (Projection.calculate cash mu sigma lev d).standardDeviation ∧
    (Projection.calculate cash mu sigma lev d).intervals.p95.low
        = (Projection.calculate cash mu sigma lev d).expectedValue
            - 1.96 * (Projection.calculate cash mu sigma lev d).standardDeviation ∧
    (Projection.calculate cash mu sigma lev d).intervals.p95.high
        = (Projection.calculate cash mu sigma lev d).expectedValue
            + 1.96 * (Projection.calculate cash mu sigma lev d).standardDeviation ∧
    (Projection.calculate cash mu sigma lev d).intervals.p99.low
        = (Projection.calculate cash mu sigma lev d).expectedValue
            - 2.576 * (Projection.calculate cash mu sigma lev d).standardDeviation ∧
    (Projection.calculate cash mu sigma lev d).intervals.p99.high
        = (Projection.calculate cash mu sigma lev d).expectedValue
            + 2.576 * (Projection.calculate cash mu sigma lev d).standardDeviation ∧
    Projection.calculateAll cash mu sigma lev =
      [(21, Projection.calculate cash mu sigma lev 21),
       (63, Projection.calculate cash mu sigma lev 63),
       (126, Projection.calculate cash mu sigma lev 126),
       (252, Projection.calculate cash mu sigma lev 252)] ∧
    (Projection.calculateContinuous cash mu sigma lev).days = List.range 253 ∧
    (Projection.calculateContinuous cash mu sigma lev).expected
        = (List.range 253).map fun k => cash * (1 + mu * lev) ^ k :=
  ⟨rfl, rfl, rfl, rfl, rfl, rfl, rfl, rfl, rfl, rfl, rfl⟩

/-- The spec's drawdown test fixture: equity curve
`[100, 110, 95, 90, 105, 120]` on consecutive trading days. -/
def demoCurve : List App.EquityPoint :=
  [⟨0, 100⟩, ⟨1, 110⟩, ⟨2, 95⟩, ⟨3, 90⟩, ⟨4, 105⟩, ⟨5, 120⟩]

/-- Invariant carried through the `calculateDrawdowns` loop: every recorded
episode, open or closed, has a drawdown strictly below the -1% trigger. -/
def ddInv (s : App.DrawdownState) : Prop :=
  (∀ e ∈ s.acc, e.drawdown < -(1 / 100)) ∧
  ∀ e, s.current = some e → e.drawdown < -(1 / 100)

lemma ddStep_inv (s : App.DrawdownState) (p : App.EquityPoint) (h : ddInv s) :
    ddInv (App.drawdownStep s p) := by
  obtain ⟨hacc, hcur⟩ := h
  unfold App.drawdownStep
  cases hs : s.current with
  | none =>
      simp only [hs]
      split_ifs with hpk hdd
      · exact ⟨hacc, by simp⟩
      · refine ⟨hacc, ?_⟩
        intro e he
        simp only [Option.some.injEq] at he
        subst he
        exact hdd
      · exact ⟨hacc, hcur⟩
  | some cd =>
      simp only [hs]
      split_ifs with hpk hdd
      · refine ⟨?_, by simp⟩
        intro e he
        rcases List.mem_append.1 he with h1 | h1
        · exact hacc e h1
        · rcases List.mem_singleton.1 h1 with rfl
          exact hcur cd hs
      · refine ⟨hacc, ?_⟩
        intro e he
        simp only [Option.some.injEq] at he
        subst he
        exact lt_trans hdd (hcur cd hs)
      · exact ⟨hacc, hcur⟩

lemma ddFold_inv (l : List App.EquityPoint) (s : App.DrawdownState) (h : ddInv s) :
    ddInv (l.foldl App.drawdownStep s) := by
  induction l generalizing s with
  | nil => exact h
  | cons p rest ih => exact ih _ (ddStep_inv s p h)

/-- Second invariant of the `calculateDrawdowns` loop: an open episode has
no recovery date yet and its recorded peak is the current running peak, and
every closed episode's recovery date points at an already-visited curve
point whose value strictly exceeds the episode's peak (the "new peak" that
closed it). -/
def ddInv2 (visited : List App.EquityPoint) (s : App.DrawdownState) : Prop :=
  (∀ cd, s.current = some cd → cd.recoveryDate = none ∧ cd.peakValue = s.peak) ∧
  ∀ e ∈ s.acc, ∀ d, e.recoveryDate = some d →
    ∃ q ∈ visited, q.date = d ∧ e.peakValue < q.value

lemma ddStep_inv2 (visited : List App.EquityPoint) (s : App.DrawdownState)
    (p : App.EquityPoint) (h : ddInv2 visited s) :
    ddInv2 (visited ++ [p]) (App.drawdownStep s p) := by
  obtain ⟨hcur, hacc⟩ := h
  have hweak : ∀ e ∈ s.acc, ∀ d, e.recoveryDate = some d →
      ∃ q ∈ visited ++ [p], q.date = d ∧ e.peakValue < q.value := by
    intro e he d hd
    obtain ⟨q, hq, hqd, hqv⟩ := hacc e he d hd
    exact ⟨q, List.mem_append.2 (Or.inl hq), hqd, hqv⟩
  unfold App.drawdownStep
  cases hs : s.current with
  | none =>
      simp only [hs]
      split_ifs with hpk hdd
      · exact ⟨by simp, hweak⟩
      · refine ⟨?_, hweak⟩
        intro cd hcd
        simp only [Option.some.injEq] at hcd
        subst hcd
        exact ⟨rfl, rfl⟩
      · exact ⟨hcur, hweak⟩
  | some cd =>
      simp only [hs]
      split_ifs with hpk hdd
      · refine ⟨by simp, ?_⟩
        intro e he d hd
        rcases List.mem_append.1 he with h1 | h1
        · exact hweak e h1 d hd
        · rcases List.mem_singleton.1 h1 with rfl
          simp only [Option.some.injEq] at hd
          subst hd
          refine ⟨p, List.mem_append.2 (Or.inr (by simp)), rfl, ?_⟩
          show cd.peakValue < p.value
          rw [(hcur cd hs).2]
          exact hpk
      · refine ⟨?_, hweak⟩
        intro cd2 hcd2
        simp only [Option.some.injEq] at hcd2
        subst hcd2
        exact ⟨(hcur cd hs).1, (hcur cd hs).2⟩
      · exact ⟨hcur, hweak⟩

lemma ddFold_inv2 (l : List App.EquityPoint) :
    ∀ (visited : List App.EquityPoint) (s : App.DrawdownState), ddInv2 visited s →
      ddInv2 (visited ++ l) (l.foldl App.drawdownStep s) := by
  induction l with
  | nil => intro visited s h; simpa using h
  | cons p rest ih =>
      intro visited s h
      have h2 := ih (visited ++ [p]) (App.drawdownStep s p) (ddStep_inv2 visited s p h)
      simpa [List.append_assoc] using h2

/-- Claim C3: on the equity curve `[100, 110, 95, 90, 105, 120]` the
drawdown detector reports exactly one closed episode — peak `110` at the
date `110` first occurs, trough `90`, recovery at the date the value `120`
first exceeds the peak — and no episode for the `100 → 110` climb; and in
general every reported episode (so in particular every opened one) sits
strictly more than 1% below the running peak at its trough, and every
closed episode's recovery date carries a curve value strictly above the
episode's peak (an episode closes only when a new peak is reached). -/
theorem c3_drawdown_detection :
    App.calculateDrawdowns demoCurve =
      [{ peakDate := 1, peakValue := 110, troughDate := 3, troughValue := 90
         drawdown := -(2 / 11), duration := 2, recoveryDate := some 5 }] ∧
    (∀ curve : List App.EquityPoint, ∀ e ∈ App.calculateDrawdowns curve,
      e.drawdown < -(1 / 100)) ∧
    ∀ curve : List App.EquityPoint, ∀ e ∈ App.calculateDrawdowns curve,
      ∀ d, e.recoveryDate = some d →
        ∃ q ∈ curve, q.date = d ∧ e.peakValue < q.value := by
  refine ⟨?_, ?_, ?_⟩
  · norm_num [App.calculateDrawdowns, demoCurve, App.drawdownStep]
  · intro curve e he
    match curve with
    | [] => simp [App.calculateDrawdowns] at he
    | p0 :: rest =>
        unfold App.calculateDrawdowns at he
        simp only [List.mem_map] at he
        obtain ⟨dd, hdd, rfl⟩ := he
        have hinv : ddInv (rest.foldl App.drawdownStep
            { peak := p0.value, peakDate := p0.date, current := none, acc := [] }) :=
          ddFold_inv rest _ ⟨by simp, by simp⟩
        rcases List.mem_append.1 hdd with h1 | h1
        · exact hinv.1 dd h1
        · rcases hcur : (rest.foldl App.drawdownStep
              { peak := p0.value, peakDate := p0.date, current := none, acc := [] }).current
              with _ | cd
          · simp [hcur] at h1
          · rw [hcur] at h1
            rcases List.mem_singleton.1 h1 with rfl
            exact hinv.2 dd hcur
  · intro curve e he d hd
    match curve with
    | [] => simp [App.calculateDrawdowns] at he
    | p0 :: rest =>
        unfold App.calculateDrawdowns at he
        simp only [List.mem_map] at he
        obtain ⟨dd, hdd, rfl⟩ := he
        have hinv : ddInv2 ([p0] ++ rest) (rest.foldl App.drawdownStep
            { peak := p0.value, peakDate := p0.date, current := none, acc := [] }) :=
          ddFold_inv2 rest [p0] _ ⟨by simp, by simp⟩
        rcases List.mem_append.1 hdd with h1 | h1
        · obtain ⟨q, hq, hqd, hqv⟩ := hinv.2 dd h1 d hd
          exact ⟨q, by simpa using hq, hqd, hqv⟩
        · rcases hcur : (rest.foldl App.drawdownStep
              { peak := p0.value, peakDate := p0.date, current := none, acc := [] }).current
              with _ | cd
          · simp [hcur] at h1
          · rw [hcur] at h1
            rcases List.mem_singleton.1 h1 with rfl
            have := (hinv.1 dd hcur).1
            rw [show ({ dd with
                duration := dd.troughDate - dd.peakDate } : App.DrawdownPeriod).recoveryDate
              = dd.recoveryDate from rfl, this] at hd
            exact Option.noConfusion hd

/-- Witness for C3: the single episode reported on the fixture indeed lies
below the -1% trigger. -/
theorem c3_drawdown_detection_witness :
    ({ peakDate := 1, peakValue := 110, troughDate := 3, troughValue := 90
       drawdown := -(2 / 11), duration := 2, recoveryDate := some 5 } :
        App.DrawdownPeriod).drawdown < -(1 / 100) ∧
    ∃ q ∈ demoCurve, q.date = 5 ∧
      ({ peakDate := 1, peakValue := 110, troughDate := 3, troughValue := 90
         drawdown := -(2 / 11), duration := 2, recoveryDate := some 5 } :
          App.DrawdownPeriod).peakValue < q.value :=
  ⟨c3_drawdown_detection.2.1 demoCurve _
      (by norm_num [App.calculateDrawdowns, demoCurve, App.drawdownStep]),
   c3_drawdown_detection.2.2 demoCurve _
      (by norm_num [App.calculateDrawdowns, demoCurve, App.drawdownStep]) 5 rfl⟩

/-- The number of days in a price sequence whose prior day has a
non-positive adjusted close (those days' returns are dropped). -/
def countNonposPriors (prices : List PriceBar) : ℕ :=
  ((prices.zip prices.tail).filter fun pq => pq.1.adjClose ≤ 0).length

lemma countNonposPriors_cons (prev c : PriceBar) (rest : List PriceBar) :
    countNonposPriors (prev :: c :: rest)
      = (if prev.adjClose <= 0 then 1 else 0) + countNonposPriors (c :: rest) := by
  by_cases h : prev.adjClose <= 0 <;>
    simp [countNonposPriors, List.filter_cons, h, Nat.add_comm]

lemma dailyReturnsAux_length (l : List PriceBar) :
    ∀ prev : PriceBar,
      (RiskAnalysis.dailyReturnsAux prev l).length + countNonposPriors (prev :: l)
        = l.length := by
  induction l with
  | nil => intro prev; simp [RiskAnalysis.dailyReturnsAux, countNonposPriors]
  | cons c rest ih =>
      intro prev
      rw [countNonposPriors_cons]
      unfold RiskAnalysis.dailyReturnsAux
      by_cases hp : 0 < prev.adjClose
      · rw [if_pos hp, if_neg (not_le.2 hp)]
        have := ih c
        simp only [List.length_cons]
        omega
      · rw [if_neg hp, if_pos (not_lt.1 hp)]
        have := ih c
        simp only [List.length_cons]
        omega

lemma dailyReturnsAux_allPos (l : List PriceBar) :
    ∀ prev : PriceBar, (∀ b ∈ prev :: l, 0 < b.adjClose) →
      RiskAnalysis.dailyReturnsAux prev l
        = ((prev :: l).zip l).map fun pq =>
            (pq.2.adjClose - pq.1.adjClose) / pq.1.adjClose := by
  induction l with
  | nil => intro prev _; rfl
  | cons c rest ih =>
      intro prev hpos
      have hp : 0 < prev.adjClose := hpos prev (by simp)
      have hrest : ∀ b ∈ c :: rest, 0 < b.adjClose := fun b hb => hpos b (by simp [hb])
      unfold RiskAnalysis.dailyReturnsAux
      rw [if_pos hp, ih c hrest]
      rfl

/-- Claim C6: for every price sequence, the daily-return computation yields
a sequence whose length is `input length - 1` minus exactly the number of
days whose prior price is non-positive (those single days' returns are
dropped, not interpolated); when every price is positive, entry `t` is
`(adjClose[t+1] - adjClose[t]) / adjClose[t]` (so the length is exactly
`input length - 1`); and an input of fewer than 2 bars yields the empty
sequence rather than an error. -/
theorem c6_daily_returns_shape (prices : List PriceBar) :
    (prices.length < 2 → RiskAnalysis.calculateDailyReturns prices = []) ∧
    (RiskAnalysis.calculateDailyReturns prices).length + countNonposPriors prices
        = prices.length - 1 ∧
    ((∀ b ∈ prices, 0 < b.adjClose) →
      RiskAnalysis.calculateDailyReturns prices
        = (prices.zip prices.tail).map fun pq =>
            (pq.2.adjClose - pq.1.adjClose) / pq.1.adjClose) := by
  refine ⟨fun h => by simp [RiskAnalysis.calculateDailyReturns, h], ?_, ?_⟩
  · match prices with
    | [] => simp [RiskAnalysis.calculateDailyReturns, countNonposPriors]
    | [p] => simp [RiskAnalysis.calculateDailyReturns, countNonposPriors]
    | p :: q :: rest =>
        have hlen : ¬ (p :: q :: rest).length < 2 := by simp
        unfold RiskAnalysis.calculateDailyReturns
        rw [if_neg hlen]
        show (RiskAnalysis.dailyReturnsAux p (q :: rest)).length
            + countNonposPriors (p :: q :: rest) = (p :: q :: rest).length - 1
        have := dailyReturnsAux_length (q :: rest) p
        simp only [List.length_cons] at this ⊢
        omega
  · intro hpos
    match prices with
    | [] => rfl
    | [p] => rfl
    | p :: q :: rest =>
        have hlen : ¬ (p :: q :: rest).length < 2 := by simp
        unfold RiskAnalysis.calculateDailyReturns
        rw [if_neg hlen]
        show RiskAnalysis.dailyReturnsAux p (q :: rest) = _
        rw [dailyReturnsAux_allPos (q :: rest) p hpos]
        rfl

/-- Witness for C6 on a concrete all-positive three-bar history. -/
theorem c6_daily_returns_shape_witness :
    RiskAnalysis.calculateDailyReturns [⟨0, 2⟩, ⟨1, 3⟩, ⟨2, 6⟩]
      = (([⟨0, 2⟩, ⟨1, 3⟩, ⟨2, 6⟩] : List PriceBar).zip
          ([⟨0, 2⟩, ⟨1, 3⟩, ⟨2, 6⟩] : List PriceBar).tail).map
          (fun pq => (pq.2.adjClose - pq.1.adjClose) / pq.1.adjClose) :=
  (c6_daily_returns_shape _).2.2 (by norm_num [List.forall_mem_cons])

/-- The dated per-asset return series a price-history map assigns to a
ticker (empty when the ticker is absent). -/
def returnsWithDatesOf (ph : List (Ticker × List PriceBar)) (t : Ticker) :
    List (ℕ × ℚ) :=
  RiskAnalysis.calculateDailyReturnsWithDates ((ph.lookup t).getD [])

/-- Modelled from the spec: two price-history inputs whose per-asset daily
return values agree on every date common to both inputs, for every ticker of
the weight vector (the hypothesis of the claimed alignment invariance). -/
def agreeOnCommonDates (ph1 ph2 : List (Ticker × List PriceBar))
    (w : List (Ticker × ℚ)) : Prop :=
  ∀ p ∈ w, ∀ q ∈ returnsWithDatesOf ph1 p.1, ∀ q' ∈ returnsWithDatesOf ph2 p.1,
    q.1 = q'.1 → q.2 = q'.2

/-- Weight vector for the C1 counterexample: 50/50 across two assets. -/
def c1w : List (Ticker × ℚ) := [("A", 1/2), ("B", 1/2)]

/-- First price history: both assets quoted on days 1-3. -/
def c1ph1 : List (Ticker × List PriceBar) :=
  [("A", [⟨1, 100⟩, ⟨2, 110⟩, ⟨3, 121⟩]),
   ("B", [⟨1, 100⟩, ⟨2, 100⟩, ⟨3, 200⟩])]

/-- Second price history: identical returns on the common days 2-3, but
asset A has an extra trailing day and asset B an extra leading day. -/
def c1ph2 : List (Ticker × List PriceBar) :=
  [("A", [⟨1, 100⟩, ⟨2, 110⟩, ⟨3, 121⟩, ⟨4, 242⟩]),
   ("B", [⟨0, 50⟩, ⟨1, 100⟩, ⟨2, 100⟩, ⟨3, 200⟩])]

/-- Counterexample to claim C1: the two histories agree on every common
date for every weighted asset, yet the composed portfolio return sequences
differ (the code aligns by position after truncating to the shortest
series, so the extra leading day of one asset shifts everything). -/
theorem c1_counterexample :
    agreeOnCommonDates c1ph1 c1ph2 c1w ∧
    RiskAnalysis.calculatePortfolioReturns c1ph1 c1w
      ≠ RiskAnalysis.calculatePortfolioReturns c1ph2 c1w := by
  have hA1 : returnsWithDatesOf c1ph1 "A" = [(2, 1/10), (3, 1/10)] := by
    simp [returnsWithDatesOf, c1ph1, RiskAnalysis.calculateDailyReturnsWithDates,
      RiskAnalysis.dailyReturnsWithDatesAux, List.lookup]
    norm_num
  have hB1 : returnsWithDatesOf c1ph1 "B" = [(2, 0), (3, 1)] := by
    simp [returnsWithDatesOf, c1ph1, RiskAnalysis.calculateDailyReturnsWithDates,
      RiskAnalysis.dailyReturnsWithDatesAux, List.lookup]
    norm_num
  have hA2 : returnsWithDatesOf c1ph2 "A" = [(2, 1/10), (3, 1/10), (4, 1)] := by
    simp [returnsWithDatesOf, c1ph2, RiskAnalysis.calculateDailyReturnsWithDates,
      RiskAnalysis.dailyReturnsWithDatesAux, List.lookup]
    norm_num
  have hB2 : returnsWithDatesOf c1ph2 "B" = [(1, 1), (2, 0), (3, 1)] := by
    simp [returnsWithDatesOf, c1ph2, RiskAnalysis.calculateDailyReturnsWithDates,
      RiskAnalysis.dailyReturnsWithDatesAux, List.lookup]
    norm_num
  constructor
  · simp only [agreeOnCommonDates, c1w, List.forall_mem_cons, List.forall_mem_nil]
    refine ⟨?_, ?_, by simp⟩
    · simp only [hA1, hA2]
      simp [List.forall_mem_cons]
    · simp only [hB1, hB2]
      simp [List.forall_mem_cons]
  · have e1 : RiskAnalysis.calculatePortfolioReturns c1ph1 c1w = [1/20, 11/20] := by
      simp [c1w, c1ph1, RiskAnalysis.calculatePortfolioReturns, RiskAnalysis.assetReturns,
        RiskAnalysis.minLen, RiskAnalysis.calculateDailyReturns, RiskAnalysis.dailyReturnsAux,
        List.range_succ, List.lookup]
      norm_num
    have e2 : RiskAnalysis.calculatePortfolioReturns c1ph2 c1w = [11/20, 1/20, 1] := by
      simp [c1w, c1ph2, RiskAnalysis.calculatePortfolioReturns, RiskAnalysis.assetReturns,
        RiskAnalysis.minLen, RiskAnalysis.calculateDailyReturns, RiskAnalysis.dailyReturnsAux,
        List.range_succ, List.lookup]
      norm_num
    rw [e1, e2]
    simp

/-- Relabel the date of a price bar, leaving the price untouched. -/
def relabelBar (f : ℕ → ℕ) (b : PriceBar) : PriceBar :=
  { b with date := f b.date }

/-- Apply a date relabelling to every bar of every asset. -/
def relabelDates (f : ℕ → ℕ) (ph : List (Ticker × List PriceBar)) :
    List (Ticker × List PriceBar) :=
  ph.map fun p => (p.1, p.2.map (relabelBar f))

lemma dailyReturnsAux_relabel (f : ℕ → ℕ) (l : List PriceBar) :
    ∀ prev : PriceBar,
      RiskAnalysis.dailyReturnsAux (relabelBar f prev) (l.map (relabelBar f))
        = RiskAnalysis.dailyReturnsAux prev l := by
  induction l with
  | nil => intro prev; rfl
  | cons c rest ih =>
      intro prev
      unfold RiskAnalysis.dailyReturnsAux
      simp only [List.map_cons]
      by_cases hp : 0 < prev.adjClose
      · simpa [relabelBar, hp] using ih c
      · simpa [relabelBar, hp] using ih c

lemma calculateDailyReturns_relabel (f : ℕ → ℕ) (l : List PriceBar) :
    RiskAnalysis.calculateDailyReturns (l.map (relabelBar f))
      = RiskAnalysis.calculateDailyReturns l := by
  cases l with
  | nil => rfl
  | cons p rest =>
      unfold RiskAnalysis.calculateDailyReturns
      simp only [List.map_cons, List.length_cons, List.length_map]
      split_ifs
      · rfl
      · exact dailyReturnsAux_relabel f rest p

lemma assetReturns_relabel (f : ℕ → ℕ) (ph : List (Ticker × List PriceBar))
    (w : List (Ticker × ℚ)) :
    RiskAnalysis.assetReturns (relabelDates f ph) w = RiskAnalysis.assetReturns ph w := by
  induction ph with
  | nil => rfl
  | cons p rest ih =>
      unfold RiskAnalysis.assetReturns relabelDates at ih ⊢
      simp only [List.map_cons, List.filterMap_cons]
      rw [calculateDailyReturns_relabel, ih]

/-- Claim C1, amended: the composed portfolio daily-return sequence is
aligned by positional index, not by calendar date — each weighted asset's
return series is truncated to the common minimum length and summed
entry-wise — so the composition is completely insensitive to the date
labels: relabelling every date arbitrarily leaves the result unchanged. -/
theorem c1_positional_alignment (f : ℕ → ℕ) (ph : List (Ticker × List PriceBar))
    (w : List (Ticker × ℚ)) :
    RiskAnalysis.calculatePortfolioReturns (relabelDates f ph) w
      = RiskAnalysis.calculatePortfolioReturns ph w := by
  unfold RiskAnalysis.calculatePortfolioReturns
  rw [assetReturns_relabel]

/-- Price history for the C9 counterexample: asset A has three bars, asset
B only one. -/
def c9ph : List (Ticker × List PriceBar) :=
  [("A", [⟨1, 100⟩, ⟨2, 110⟩, ⟨3, 121⟩]), ("B", [⟨1, 100⟩])]

/-- Weight vector for the C9 counterexample. -/
def c9w : List (Ticker × ℚ) := [("A", 1/2), ("B", 1/2)]

/-- Counterexample to claim C9: the analysis returns `null` although a
ticker of the weight vector (asset A) has at least 2 price bars — a single
thin ticker (B, one bar) empties the composed return sequence because the
positional truncation clips every series to the shortest one. -/
theorem c9_counterexample :
    RiskAnalysis.analyze c9ph c9w 100000 1 (1/20) = none ∧
    ∃ p ∈ c9ph, (c9w.lookup p.1).isSome ∧ 2 ≤ p.2.length := by
  constructor
  · have h : RiskAnalysis.calculatePortfolioReturns c9ph c9w = [] := by
      simp [c9ph, c9w, RiskAnalysis.calculatePortfolioReturns, RiskAnalysis.assetReturns,
        RiskAnalysis.minLen, RiskAnalysis.calculateDailyReturns, RiskAnalysis.dailyReturnsAux,
        List.lookup]
    simp [RiskAnalysis.analyze, h]
  · refine ⟨("A", [⟨1, 100⟩, ⟨2, 110⟩, ⟨3, 121⟩]), by simp [c9ph], ?_, by simp⟩
    simp [c9w, List.lookup]

lemma minLenAux_isSome (l : List (Ticker × List ℚ)) :
    ∀ k : ℕ, ∃ m, l.foldl
      (fun m p =>
        match m with
        | none => some p.2.length
        | some k' => some (min k' p.2.length)) (some k) = some m := by
  induction l with
  | nil => intro k; exact ⟨k, rfl⟩
  | cons p rest ih => intro k; exact ih (min k p.2.length)

lemma minLenAux_some_zero (l : List (Ticker × List ℚ)) :
    ∀ k : ℕ, (l.foldl
      (fun m p =>
        match m with
        | none => some p.2.length
        | some k' => some (min k' p.2.length)) (some k) = some 0)
      ↔ (k = 0 ∨ ∃ p ∈ l, p.2.length = 0) := by
  induction l with
  | nil => intro k; simp
  | cons p rest ih =>
      intro k
      rw [List.foldl_cons]
      show (rest.foldl _ (some (min k p.2.length)) = some 0) ↔ _
      rw [ih (min k p.2.length)]
      simp only [Nat.min_eq_zero_iff, List.mem_cons]
      constructor
      · rintro ((h | h) | ⟨q, hq, hq0⟩)
        · exact Or.inl h
        · exact Or.inr ⟨p, Or.inl rfl, h⟩
        · exact Or.inr ⟨q, Or.inr hq, hq0⟩
      · rintro (h | ⟨q, (rfl | hq), hq0⟩)
        · exact Or.inl (Or.inl h)
        · exact Or.inl (Or.inr hq0)
        · exact Or.inr ⟨q, hq, hq0⟩

lemma minLen_eq_none_iff (ars : List (Ticker × List ℚ)) :
    RiskAnalysis.minLen ars = none ↔ ars = [] := by
  cases ars with
  | nil => simp [RiskAnalysis.minLen]
  | cons p rest =>
      obtain ⟨m, hm⟩ := minLenAux_isSome rest p.2.length
      unfold RiskAnalysis.minLen
      rw [List.foldl_cons]
      show (rest.foldl _ (some p.2.length) = none) ↔ _
      rw [hm]
      simp

lemma minLen_eq_some_zero_iff (ars : List (Ticker × List ℚ)) :
    RiskAnalysis.minLen ars = some 0 ↔ ∃ p ∈ ars, p.2 = [] := by
  cases ars with
  | nil => simp [RiskAnalysis.minLen]
  | cons p rest =>
      unfold RiskAnalysis.minLen
      rw [List.foldl_cons]
      show (rest.foldl _ (some p.2.length) = some 0) ↔ _
      rw [minLenAux_some_zero rest p.2.length]
      simp only [List.length_eq_zero]
      constructor
      · rintro (h | ⟨q, hq, hq0⟩)
        · exact ⟨p, by simp, h⟩
        · exact ⟨q, by simp [hq], hq0⟩
      · rintro ⟨q, hq, hq0⟩
        rcases List.mem_cons.1 hq with rfl | hq2
        · exact Or.inl hq0
        · exact Or.inr ⟨q, hq2, hq0⟩

/-- Claim C9, amended: the full risk analysis returns `null` exactly when
the composed portfolio daily-return sequence is empty, and that happens
exactly when either no weight-vector ticker appears in the price history at
all, or some weighted ticker present in the history yields an empty
daily-return series (fewer than 2 bars, or no positive prior price) — so a
single thin ticker nulls the whole analysis even if others have ≥ 2 bars;
otherwise a complete metrics record is returned. -/
theorem c9_null_iff_empty_returns (ph : List (Ticker × List PriceBar))
    (w : List (Ticker × ℚ)) (cash lev rf : ℝ) :
    (RiskAnalysis.analyze ph w cash lev rf = none ↔
      RiskAnalysis.calculatePortfolioReturns ph w = []) ∧
    (RiskAnalysis.calculatePortfolioReturns ph w = [] ↔
      RiskAnalysis.assetReturns ph w = [] ∨
        ∃ p ∈ RiskAnalysis.assetReturns ph w, p.2 = []) := by
  constructor
  · by_cases hp : RiskAnalysis.calculatePortfolioReturns ph w = [] <;>
      simp [RiskAnalysis.analyze, hp]
  · simp only [RiskAnalysis.calculatePortfolioReturns]
    rcases hm : RiskAnalysis.minLen (RiskAnalysis.assetReturns ph w) with _ | m
    · rw [minLen_eq_none_iff] at hm
      simp [hm, RiskAnalysis.minLen]
    · by_cases h0 : m = 0
      · subst h0
        rw [minLen_eq_some_zero_iff] at hm
        simp only [if_pos rfl]
        simp [hm]
      · dsimp only
        rw [if_neg h0]
        constructor
        · intro h
          simp [List.range_eq_nil] at h
          exact absurd h h0
        · rintro (h | hq)
          · exact Option.noConfusion (((minLen_eq_none_iff _).2 h).symm.trans hm)
          · have h00 : (some (0 : ℕ)) = some m :=
              ((minLen_eq_some_zero_iff _).2 hq).symm.trans hm
            injection h00 with h01
            exact absurd h01.symm h0

/-- Price history for the C2 evaluation: one asset, returns 1/4 then 0. -/
def c2ph : List (Ticker × List PriceBar) :=
  [("A", [⟨1, 4⟩, ⟨2, 5⟩, ⟨3, 5⟩])]

/-- Weight vector for the C2 evaluation: everything in asset A. -/
def c2w : List (Ticker × ℚ) := [("A", 1)]

/-- Claim C2 is violated by the code (code bug): with a 5% risk-free rate
the Sharpe ratio produced by `analyze` differs between leverage 1 and
leverage 3 on identical data, because the code subtracts the *unscaled*
risk-free rate from the *leveraged* return:
`(L·R − rf) / (L·σ)` depends on `L` whenever `rf ≠ 0`.  This contradicts
both the spec's testable property and the code's own comment
("Sharpe ratio remains the same with leverage"). -/
theorem c2_sharpe_not_leverage_invariant :
    (RiskAnalysis.analyze c2ph c2w 100000 1 (1/20)).map RiskAnalysis.RiskMetrics.sharpe
      ≠ (RiskAnalysis.analyze c2ph c2w 100000 3 (1/20)).map RiskAnalysis.RiskMetrics.sharpe := by
  have hprs : RiskAnalysis.calculatePortfolioReturns c2ph c2w = [1/4, 0] := by
    simp [c2ph, c2w, RiskAnalysis.calculatePortfolioReturns, RiskAnalysis.assetReturns,
      RiskAnalysis.minLen, RiskAnalysis.calculateDailyReturns, RiskAnalysis.dailyReturnsAux,
      List.range_succ, List.lookup]
    norm_num
  have hmean : RiskAnalysis.mean [1/4, 0] = 1/8 := by
    norm_num [RiskAnalysis.mean, List.cons_ne_nil]
  have hvar : RiskAnalysis.sampleVariance [1/4, 0] (1/8) = 1/32 := by
    norm_num [RiskAnalysis.sampleVariance]
  have hret : RiskAnalysis.calculateExpectedReturn [1/4, 0]
      = { dailyReturn := 1/8, annualizedReturn := 63/2 } := by
    norm_num [RiskAnalysis.calculateExpectedReturn, RiskAnalysis.mean,
      RiskAnalysis.TRADING_DAYS_PER_YEAR, List.cons_ne_nil]
  have hstd : RiskAnalysis.stdDev [1/4, 0] (1/8)
      = Real.sqrt (((1/32 : ℚ) : ℝ)) := by
    rw [RiskAnalysis.stdDev, if_neg (by norm_num), hvar]
  have hVpos : (0 : ℝ) < Real.sqrt (((1/32 : ℚ) : ℝ))
      * Real.sqrt ((RiskAnalysis.TRADING_DAYS_PER_YEAR : ℕ) : ℝ) := by
    apply mul_pos
    · apply Real.sqrt_pos.2
      norm_num
    · apply Real.sqrt_pos.2
      norm_num [RiskAnalysis.TRADING_DAYS_PER_YEAR]
  simp only [RiskAnalysis.analyze, hprs, RiskAnalysis.calculateVolatility, hret, hmean,
    hstd, if_neg (List.cons_ne_nil (1/4 : ℚ) [0]), Option.map_some', ne_eq,
    Option.some.injEq]
  set V : ℝ := Real.sqrt (((1/32 : ℚ) : ℝ))
      * Real.sqrt ((RiskAnalysis.TRADING_DAYS_PER_YEAR : ℕ) : ℝ) with hV
  unfold RiskAnalysis.calculateSharpe
  rw [if_neg (by nlinarith [hVpos]), if_neg (by nlinarith [hVpos])]
  have h632 : (((63 : ℚ)/2 : ℚ) : ℝ) = 63/2 := by norm_num
  rw [h632]
  intro h
  rw [div_eq_div_iff (by nlinarith [hVpos]) (by nlinarith [hVpos])] at h
  nlinarith [hVpos]

/-- Cauchy-Schwarz for lists of pairs, by induction. -/
lemma list_cauchy (l : List (ℚ × ℚ)) :
    ((l.map fun p => p.1 * p.2).sum) ^ 2
      ≤ ((l.map fun p => p.1 ^ 2).sum) * ((l.map fun p => p.2 ^ 2).sum) := by
  induction l with
  | nil => simp
  | cons p rest ih =>
      simp only [List.map_cons, List.sum_cons]
      have hA : (0:ℚ) ≤ (rest.map fun p => p.1 ^ 2).sum := by
        apply List.sum_nonneg
        intro x hx
        obtain ⟨q, _, rfl⟩ := List.mem_map.1 hx
        positivity
      have hB : (0:ℚ) ≤ (rest.map fun p => p.2 ^ 2).sum := by
        apply List.sum_nonneg
        intro x hx
        obtain ⟨q, _, rfl⟩ := List.mem_map.1 hx
        positivity
      set S := (rest.map fun p => p.1 * p.2).sum
      set A := (rest.map fun p => p.1 ^ 2).sum
      set B := (rest.map fun p => p.2 ^ 2).sum
      rcases eq_or_lt_of_le hB with hB0 | hBpos
      · have hS0 : S = 0 := by nlinarith [sq_nonneg S]
        rw [hS0, ← hB0]
        nlinarith [mul_nonneg hA (sq_nonneg p.2)]
      · nlinarith [sq_nonneg (p.1 * B - p.2 * S),
          mul_nonneg (add_nonneg (sq_nonneg p.2) hB) (sub_nonneg.2 ih), hBpos]

/-- The Pearson core always lies in `[-1, 1]`. -/
lemma pearson_bounds (l : List (ℚ × ℚ)) :
    -1 ≤ RiskAnalysis.pearson l ∧ RiskAnalysis.pearson l ≤ 1 := by
  unfold RiskAnalysis.pearson
  dsimp only
  split_ifs with hn hd
  · norm_num
  · norm_num
  · set m1 := RiskAnalysis.mean (l.map Prod.fst) with hm1
    set m2 := RiskAnalysis.mean (l.map Prod.snd) with hm2
    set S := (l.map fun p => (p.1 - m1) * (p.2 - m2)).sum with hS
    set Q1 := (l.map fun p => (p.1 - m1) ^ 2).sum with hQ1
    set Q2 := (l.map fun p => (p.2 - m2) ^ 2).sum with hQ2
    have hQ1n : (0:ℚ) ≤ Q1 := by
      rw [hQ1]
      apply List.sum_nonneg
      intro x hx
      obtain ⟨q, _, rfl⟩ := List.mem_map.1 hx
      positivity
    have hQ2n : (0:ℚ) ≤ Q2 := by
      rw [hQ2]
      apply List.sum_nonneg
      intro x hx
      obtain ⟨q, _, rfl⟩ := List.mem_map.1 hx
      positivity
    have hcs : S ^ 2 ≤ Q1 * Q2 := by
      rw [hS, hQ1, hQ2]
      have h := list_cauchy (l.map fun p => (p.1 - m1, p.2 - m2))
      simpa [List.map_map, Function.comp] using h
    have habs : |(S : ℝ)| ≤ Real.sqrt ((Q1 * Q2 : ℚ) : ℝ) := by
      rw [← Real.sqrt_sq_eq_abs]
      apply Real.sqrt_le_sqrt
      exact_mod_cast hcs
    have hd1 : |(S : ℝ) / Real.sqrt ((Q1 * Q2 : ℚ) : ℝ)| ≤ 1 := by
      rw [abs_div, abs_of_nonneg (Real.sqrt_nonneg _)]
      exact div_le_one_of_le₀ habs (Real.sqrt_nonneg _)
    exact ⟨(abs_le.1 hd1).1, (abs_le.1 hd1).2⟩

/-- The pairwise correlation always lies in `[-1, 1]`. -/
lemma calculateCorrelation_bounds (r1 r2 : List (ℕ × ℚ)) :
    -1 ≤ RiskAnalysis.calculateCorrelation r1 r2 ∧
      RiskAnalysis.calculateCorrelation r1 r2 ≤ 1 :=
  pearson_bounds _

/-- Entry `(i, j)` of a row-list matrix, with out-of-range default `0`. -/
noncomputable def mEntry (M : List (List ℝ)) (i j : ℕ) : ℝ :=
  (M.getD i []).getD j 0

/-- Closed form of the matrix entries: `1` on the diagonal, the pairwise
correlation of the (sorted) index pair off it. -/
noncomputable def entrySpec (rets : List (List (ℕ × ℚ))) (i j : ℕ) : ℝ :=
  if i = j then 1
  else if j < i then RiskAnalysis.calculateCorrelation (rets.getD j []) (rets.getD i [])
  else RiskAnalysis.calculateCorrelation (rets.getD i []) (rets.getD j [])

lemma range_map_getD (n j : ℕ) (f : ℕ → ℝ) (hj : j < n) :
    ((List.range n).map f).getD j 0 = f j := by
  rw [List.getD_eq_getElem?_getD, List.getElem?_map, List.getElem?_range hj]
  rfl

lemma buildMatrix_entry (rets : List (List (ℕ × ℚ))) :
    ∀ k, k ≤ rets.length →
      ((List.range k).foldl (fun acc i => acc ++ [RiskAnalysis.buildRow rets acc i]) []).length
          = k
      ∧ ∀ i j, i < k → j < rets.length →
          mEntry ((List.range k).foldl
              (fun acc i => acc ++ [RiskAnalysis.buildRow rets acc i]) []) i j
            = entrySpec rets i j := by
  intro k
  induction k with
  | zero => intro _; exact ⟨rfl, fun i j hi _ => absurd hi (Nat.not_lt_zero i)⟩
  | succ k ih =>
      intro hk
      obtain ⟨hlen, hent⟩ := ih (Nat.le_of_succ_le hk)
      have hkn : k < rets.length := hk
      rw [List.range_succ, List.foldl_append]
      simp only [List.foldl_cons, List.foldl_nil]
      set Mk := (List.range k).foldl
        (fun acc i => acc ++ [RiskAnalysis.buildRow rets acc i]) [] with hMk
      constructor
      · rw [List.length_append, hlen]
        rfl
      · intro i j hi hj
        rcases Nat.lt_succ_iff_lt_or_eq.1 hi with hik | rfl
        · unfold mEntry
          rw [List.getD_append _ _ _ _ (by rw [hlen]; exact hik)]
          exact hent i j hik hj
        · unfold mEntry
          rw [List.getD_append_right _ _ _ _ (le_of_eq hlen), hlen, Nat.sub_self]
          show (RiskAnalysis.buildRow rets Mk i).getD j 0 = entrySpec rets i j
          unfold RiskAnalysis.buildRow
          rw [range_map_getD _ _ _ hj]
          by_cases hij : i = j
          · simp [entrySpec, hij]
          · rw [if_neg hij]
            by_cases hji : j < i
            · rw [if_pos hji]
              have hsp := hent j i hji hkn
              unfold mEntry at hsp
              rw [hsp]
              have hne : ¬ j = i := Nat.ne_of_lt hji
              have hnlt : ¬ i < j := Nat.lt_asymm hji
              simp [entrySpec, hne, hnlt, hij, hji]
            · rw [if_neg hji]
              simp [entrySpec, hij, hji]

/-- Claim C5: the pairwise correlation matrix is symmetric, has diagonal
entries exactly `1` (never computed as a self-correlation), every entry in
`[-1, 1]`, and each upper-triangle entry is the Pearson correlation of the
two assets' daily returns re-aligned by date for that pair (not by
position). -/
theorem c5_correlation_matrix_invariants (ph : List (Ticker × List PriceBar))
    (i j : ℕ) (hi : i < ph.length) (hj : j < ph.length) :
    mEntry (RiskAnalysis.calculateCorrelationMatrix ph) i j
        = mEntry (RiskAnalysis.calculateCorrelationMatrix ph) j i ∧
    (i = j → mEntry (RiskAnalysis.calculateCorrelationMatrix ph) i j = 1) ∧
    -1 ≤ mEntry (RiskAnalysis.calculateCorrelationMatrix ph) i j ∧
    mEntry (RiskAnalysis.calculateCorrelationMatrix ph) i j ≤ 1 ∧
    (i < j → mEntry (RiskAnalysis.calculateCorrelationMatrix ph) i j
        = RiskAnalysis.calculateCorrelation
            ((RiskAnalysis.assetReturnsWithDates ph).getD i [])
            ((RiskAnalysis.assetReturnsWithDates ph).getD j [])) := by
  have hlen : (RiskAnalysis.assetReturnsWithDates ph).length = ph.length :=
    List.length_map _ _
  have hspec := (buildMatrix_entry (RiskAnalysis.assetReturnsWithDates ph)
    (RiskAnalysis.assetReturnsWithDates ph).length (le_refl _)).2
  have hM : ∀ a b, a < ph.length → b < ph.length →
      mEntry (RiskAnalysis.calculateCorrelationMatrix ph) a b
        = entrySpec (RiskAnalysis.assetReturnsWithDates ph) a b := by
    intro a b ha hb
    exact hspec a b (by rw [hlen]; exact ha) (by rw [hlen]; exact hb)
  refine ⟨?_, ?_, ?_, ?_, ?_⟩
  · rw [hM i j hi hj, hM j i hj hi]
    unfold entrySpec
    rcases Nat.lt_trichotomy i j with hij | rfl | hij
    · rw [if_neg (Nat.ne_of_lt hij), if_neg (Nat.lt_asymm hij),
        if_neg (Ne.symm (Nat.ne_of_lt hij)), if_pos hij]
    · rfl
    · rw [if_neg (Ne.symm (Nat.ne_of_lt hij)), if_pos hij,
        if_neg (Nat.ne_of_lt hij), if_neg (Nat.lt_asymm hij)]
  · intro hij
    rw [hM i j hi hj]
    simp [entrySpec, hij]
  · rw [hM i j hi hj]
    unfold entrySpec
    split_ifs
    · norm_num
    · exact (calculateCorrelation_bounds _ _).1
    · exact (calculateCorrelation_bounds _ _).1
  · rw [hM i j hi hj]
    unfold entrySpec
    split_ifs
    · norm_num
    · exact (calculateCorrelation_bounds _ _).2
    · exact (calculateCorrelation_bounds _ _).2
  · intro hij
    rw [hM i j hi hj]
    unfold entrySpec
    rw [if_neg (Nat.ne_of_lt hij), if_neg (Nat.lt_asymm hij)]

/-- Witness for C5 on a concrete two-asset history: the (0,1) entry is
symmetric with (1,0), bounded by `±1`, and is the date-aligned pairwise
correlation; the (0,0) entry is `1`. -/
theorem c5_correlation_matrix_invariants_witness :
    (mEntry (RiskAnalysis.calculateCorrelationMatrix c1ph1) 0 1
        = mEntry (RiskAnalysis.calculateCorrelationMatrix c1ph1) 1 0 ∧
      (0 = 1 → mEntry (RiskAnalysis.calculateCorrelationMatrix c1ph1) 0 1 = 1) ∧
      -1 ≤ mEntry (RiskAnalysis.calculateCorrelationMatrix c1ph1) 0 1 ∧
      mEntry (RiskAnalysis.calculateCorrelationMatrix c1ph1) 0 1 ≤ 1 ∧
      (0 < 1 → mEntry (RiskAnalysis.calculateCorrelationMatrix c1ph1) 0 1
          = RiskAnalysis.calculateCorrelation
              ((RiskAnalysis.assetReturnsWithDates c1ph1).getD 0 [])
              ((RiskAnalysis.assetReturnsWithDates c1ph1).getD 1 []))) ∧
    mEntry (RiskAnalysis.calculateCorrelationMatrix c1ph1) 0 0 = 1 :=
  ⟨c5_correlation_matrix_invariants c1ph1 0 1 (by norm_num [c1ph1]) (by norm_num [c1ph1]),
   (c5_correlation_matrix_invariants c1ph1 0 0 (by norm_num [c1ph1])
      (by norm_num [c1ph1])).2.1 rfl⟩
